import Mathlib

/-!
Shallow embedding of the Task Model of the ToDo-list application
(`src/main.py`): the `Task` record, the `TaskModel` store with its five
mutating operations, JSON persistence (`save_tasks` / `load_tasks`), and
the active-task display projection shared by `MainWindow.update_ui` and
`MiniWindow.update_ui`.

Modelling conventions:
* The JSON file is modelled at the value level (`JFile`): `json.dump`
  followed by `json.load` of the produced file yields the same JSON value,
  so serialisation to text is not re-modelled.  A persisted task record is
  a JSON object whose three recognised keys may each be present or absent
  (`JRecord`, with `Option` fields); an array element that is not such an
  object (e.g. a string or number, failing the `isinstance(t_data, dict)`
  check) is `JEntry.invalid`.  A file that is missing, unparseable
  (`json.JSONDecodeError` / `IOError`) or whose top level is not a list
  gets its own `JFile` constructor, matching the distinct branches of
  `TaskModel.load_tasks`.
* Each mutating operation returns the new model state together with an
  `Effects` record: the list of file writes performed (`saves`), the
  number of `data_changed` signal emissions, and the number of completion
  sound plays.  This makes the side-effect structure of the Python code
  (save, then emit, then possibly play a sound) explicit and provable.
* Indices are `Int`: Python's range guard `0 <= index < len(self.tasks)`
  also rejects negative arguments, which an `Int` parameter can express.
-/

namespace ToDo

/-- `Task` from `src/main.py` (lines 38-50): description, completed flag,
prioritized flag.  `__eq__` is structural equality of the three fields,
which `DecidableEq` mirrors. -/
structure Task where
  description : String
  completed : Bool
  prioritized : Bool
deriving DecidableEq

/-- A persisted task record: a JSON object in which each of the three
recognised keys (`description`, `completed`, `prioritized`) may be present
or absent.  Fields carry the values that `save_tasks` writes and
`load_tasks` reads. -/
structure JRecord where
  description : Option String
  completed : Option Bool
  prioritized : Option Bool
deriving DecidableEq

/-- One element of the persisted JSON array: either a task-record object,
or some other JSON value (fails `isinstance(t_data, dict)` in
`load_tasks`). -/
inductive JEntry where
  | record (r : JRecord)
  | invalid
deriving DecidableEq

/-- The persistence file as `load_tasks` (lines 150-176) distinguishes it:
missing on disk, unreadable/unparseable (`json.JSONDecodeError` or
`IOError`), parseable but not a JSON list, or a JSON list of entries. -/
inductive JFile where
  | missing
  | malformed
  | notList
  | list (entries : List JEntry)
deriving DecidableEq

/-- The per-entry acceptance test of `load_tasks` (lines 163-170): an entry
is kept when it is a dict containing `description` and `completed`;
`prioritized` falls back to `False` via `t_data.get("prioritized", False)`.
Any other entry is skipped (with a printed warning). -/
def parseEntry : JEntry → Option Task
  | .record r =>
    match r.description, r.completed with
    | some d, some c => some ⟨d, c, r.prioritized.getD false⟩
    | _, _ => none
  | .invalid => none

/-- `TaskModel.save_tasks` (lines 140-148): serialise every task as the
object `{"description": ..., "completed": ..., "prioritized": ...}`, in
list order. -/
def save_tasks (tasks : List Task) : JFile :=
  .list (tasks.map fun t => .record ⟨some t.description, some t.completed, some t.prioritized⟩)

/-- `TaskModel.load_tasks` (lines 150-176): a missing file, a load error,
or a non-list top level all yield the empty task list; a JSON list yields
the tasks of the accepted entries, in order. -/
def load_tasks : JFile → List Task
  | .missing => []
  | .malformed => []
  | .notList => []
  | .list entries => entries.filterMap parseEntry

/-- The store state: the in-memory task list, and whether the completion
sound was successfully loaded by `_init_sound` (i.e. whether
`self.complete_sound` is non-`None`). -/
structure TaskModel where
  tasks : List Task
  hasSound : Bool
deriving DecidableEq

/-- Side effects performed by one operation: the file contents written by
calls to `save_tasks`, the number of `data_changed.emit()` calls, and the
number of `complete_sound.play()` calls. -/
structure Effects where
  saves : List JFile
  dataChanged : Nat
  soundPlays : Nat
deriving DecidableEq

/-- No side effects at all. -/
def noEffects : Effects := ⟨[], 0, 0⟩

/-- `TaskModel.add_task` (lines 89-94): `if description:` - Python string
truthiness, i.e. act exactly when the string is non-empty - append
`Task(description)` (completed and prioritized default to `False`), save,
emit. -/
def add_task (description : String) (m : TaskModel) : TaskModel × Effects :=
  if description ≠ "" then
    let tasks := m.tasks ++ [⟨description, false, false⟩]
    ({ m with tasks := tasks }, ⟨[save_tasks tasks], 1, 0⟩)
  else
    (m, noEffects)

/-- `TaskModel.delete_task` (lines 96-103): when `0 <= index <
len(self.tasks)`, delete the entry, save and emit; otherwise only print a
warning. -/
def delete_task (index : Int) (m : TaskModel) : TaskModel × Effects :=
  if 0 ≤ index ∧ index < (m.tasks.length : Int) then
    let tasks := m.tasks.eraseIdx index.toNat
    ({ m with tasks := tasks }, ⟨[save_tasks tasks], 1, 0⟩)
  else
    (m, noEffects)

/-- `TaskModel.toggle_complete` (lines 105-118): when the index is in
range, flip `completed`, save, emit, and - if the task is now completed
and a sound is loaded - play the completion sound once; otherwise only
print a warning. -/
def toggle_complete (index : Int) (m : TaskModel) : TaskModel × Effects :=
  if 0 ≤ index ∧ index < (m.tasks.length : Int) then
    let t := m.tasks.getD index.toNat ⟨"", false, false⟩
    let t2 := { t with completed := !t.completed }
    let tasks := m.tasks.set index.toNat t2
    ({ m with tasks := tasks },
     ⟨[save_tasks tasks], 1, if t2.completed && m.hasSound then 1 else 0⟩)
  else
    (m, noEffects)

/-- `TaskModel.toggle_priority` (lines 120-127): when the index is in
range, flip `prioritized`, save, emit; otherwise only print a warning. -/
def toggle_priority (index : Int) (m : TaskModel) : TaskModel × Effects :=
  if 0 ≤ index ∧ index < (m.tasks.length : Int) then
    let t := m.tasks.getD index.toNat ⟨"", false, false⟩
    let tasks := m.tasks.set index.toNat { t with prioritized := !t.prioritized }
    ({ m with tasks := tasks }, ⟨[save_tasks tasks], 1, 0⟩)
  else
    (m, noEffects)

/-- `TaskModel.edit_task` (lines 129-138): when the index is in range and
the new description is truthy (non-empty), replace the description, save,
emit; otherwise only print a warning. -/
def edit_task (index : Int) (new_description : String) (m : TaskModel) : TaskModel × Effects :=
  if 0 ≤ index ∧ index < (m.tasks.length : Int) ∧ new_description ≠ "" then
    let t := m.tasks.getD index.toNat ⟨"", false, false⟩
    let tasks := m.tasks.set index.toNat { t with description := new_description }
    ({ m with tasks := tasks }, ⟨[save_tasks tasks], 1, 0⟩)
  else
    (m, noEffects)

/-- Boolean order `False < True`, as Python compares the sort keys. -/
def boolLe (a b : Bool) : Bool := !a || b

/-- Stable insertion of `a` into a list: `a` goes immediately before the
first element whose key is strictly greater than `a`'s. -/
def insertByKey (key : Task → Bool) (a : Task) : List Task → List Task
  | [] => [a]
  | b :: l => if boolLe (key a) (key b) then a :: b :: l else b :: insertByKey key a l

/-- Stable ascending sort by a boolean key: the semantics of Python's
`list.sort(key=...)` (Timsort is a stable ascending sort) for a key taking
values in `{False, True}`. -/
def sortByKey (key : Task → Bool) : List Task → List Task
  | [] => []
  | a :: l => insertByKey key a (sortByKey key l)

/-- The active-task projection computed identically by
`MainWindow.update_ui` (lines 479-482) and `MiniWindow.update_ui` (lines
617-618): keep the non-completed tasks and stably sort them with
`key=lambda t: not t.prioritized`, i.e. prioritized tasks first. -/
def activeProjection (tasks : List Task) : List Task :=
  sortByKey (fun t => !t.prioritized) (tasks.filter fun t => !t.completed)

/-! ### Helper lemmas about list update -/

theorem getD_set_self (l : List Task) (i : Nat) (a d : Task) (h : i < l.length) :
    (l.set i a).getD i d = a := by
  induction l generalizing i with
  | nil => simp at h
  | cons b l ih =>
    cases i with
    | zero => rfl
    | succ n => simpa using ih n (by simpa using h)

theorem set_getD_self (l : List Task) (i : Nat) (d : Task) (h : i < l.length) :
    l.set i (l.getD i d) = l := by
  induction l generalizing i with
  | nil => simp at h
  | cons b l ih =>
    cases i with
    | zero => rfl
    | succ n => simpa using ih n (by simpa using h)

/-! ### Claims -/

/-- C1: Round-trip persistence: saving any store state and then loading
the resulting file reconstructs an identical ordered task list - same
description, completed and prioritized at every position. -/
theorem save_load_round_trip (tasks : List Task) :
    load_tasks (save_tasks tasks) = tasks := by
  induction tasks with
  | nil => rfl
  | cons t ts ih =>
    simpa [save_tasks, load_tasks, parseEntry, List.filterMap_cons] using ih

/-- C2 counterexample: adding the whitespace-only description `"   "` to
the empty store appends a task, so it is not a no-op as the claim states
(the truthiness test `if description:` only rejects the empty string). -/
theorem add_whitespace_appends :
    (add_task "   " ⟨[], true⟩).1.tasks ≠ ([] : List Task) := by decide

/-- C2 (amended): `add("")` is a no-op with no effects; any non-empty
description - including whitespace-only strings such as `"   "` - appends
a new task with `completed = false` and `prioritized = false` (the UI
caller strips input before invoking `add_task`). -/
theorem add_empty_noop_nonempty_appends (m : TaskModel) (d : String) (h : d ≠ "") :
    add_task "" m = (m, noEffects) ∧
    (add_task d m).1.tasks = m.tasks ++ [⟨d, false, false⟩] := by
  constructor
  · simp [add_task]
  · simp [add_task, h]

/-- C2 amended witness at a concrete store and description. -/
theorem add_empty_noop_nonempty_appends_witness :
    ("buy milk" ≠ "") ∧
    (add_task "" ⟨[], true⟩ = ((⟨[], true⟩ : TaskModel), noEffects) ∧
      (add_task "buy milk" ⟨[], true⟩).1.tasks = [] ++ [⟨"buy milk", false, false⟩]) :=
  ⟨by decide, add_empty_noop_nonempty_appends ⟨[], true⟩ "buy milk" (by decide)⟩

/-- C3 counterexample: a persisted record missing the `completed` key is
not loaded at all - `load_tasks` yields the empty list, not a task with
`completed = false` as the claim states. -/
theorem load_missing_completed_not_loaded :
    load_tasks (.list [.record ⟨some "x", none, none⟩]) = [] ∧
    load_tasks (.list [.record ⟨some "x", none, none⟩]) ≠ [⟨"x", false, false⟩] := by
  decide

/-- C3 (amended): a record missing only `prioritized` is loaded with
`prioritized = false`, but a record with `prioritized` data and no
`completed` key is skipped entirely rather than loaded with a default. -/
theorem load_prioritized_defaults_completed_required (d : String) (c : Bool) (p : Option Bool) :
    load_tasks (.list [.record ⟨some d, some c, none⟩]) = [⟨d, c, false⟩] ∧
    load_tasks (.list [.record ⟨some d, none, p⟩]) = [] := by
  constructor
  · simp [load_tasks, parseEntry]
  · cases p <;> simp [load_tasks, parseEntry]

/-- Inserting into a partitioned list (false-keyed elements, then
true-keyed elements): a false-keyed element goes to the very front, a
true-keyed element goes right after the false-keyed group. -/
theorem insertByKey_partition (key : Task → Bool) (a : Task) (F T : List Task)
    (hF : ∀ b ∈ F, key b = false) (hT : ∀ b ∈ T, key b = true) :
    insertByKey key a (F ++ T) =
      if key a = false then a :: (F ++ T) else F ++ a :: T := by
  induction F with
  | nil =>
    cases T with
    | nil => cases h : key a <;> simp [insertByKey, h]
    | cons c T2 =>
      have hc : key c = true := hT c (by simp)
      cases h : key a <;> simp [insertByKey, boolLe, h, hc]
  | cons b F2 ih =>
    have hb : key b = false := hF b (by simp)
    have ih2 := ih fun x hx => hF x (List.mem_cons_of_mem b hx)
    cases h : key a with
    | false => simp [insertByKey, boolLe, h, hb]
    | true => simp [insertByKey, boolLe, h, hb, ih2]

/-- A stable ascending sort on a boolean key is exactly the stable
partition: all false-keyed elements first, then all true-keyed elements,
each group in its original order. -/
theorem sortByKey_partition (key : Task → Bool) (l : List Task) :
    sortByKey key l = l.filter (fun t => !key t) ++ l.filter (fun t => key t) := by
  induction l with
  | nil => rfl
  | cons a l ih =>
    have hF : ∀ b ∈ l.filter (fun t => !key t), key b = false := by
      intro b hb
      simpa using (List.mem_filter.mp hb).2
    have hT : ∀ b ∈ l.filter (fun t => key t), key b = true := by
      intro b hb
      exact (List.mem_filter.mp hb).2
    rw [sortByKey, ih, insertByKey_partition key a _ _ hF hT]
    cases h : key a <;> simp [List.filter_cons, h]

/-- C4: the active-task projection used by the main and mini views keeps
exactly the non-completed tasks, prioritized ones first, preserving
original insertion order within each equal-priority group; in particular
[A(prioritized=false), B(prioritized=true), C(prioritized=false)]
projects to [B, A, C]. -/
theorem active_projection_ordering (tasks : List Task) :
    activeProjection tasks =
      tasks.filter (fun t => !t.completed && t.prioritized) ++
        tasks.filter (fun t => !t.completed && !t.prioritized) ∧
    activeProjection [⟨"A", false, false⟩, ⟨"B", false, true⟩, ⟨"C", false, false⟩] =
      [⟨"B", false, true⟩, ⟨"A", false, false⟩, ⟨"C", false, false⟩] := by
  constructor
  · rw [activeProjection, sortByKey_partition]
    simp [List.filter_filter, Bool.and_comm]
  · decide

/-- C6: deleting at an index that refers to no existing task (negative or
past the end) leaves the store and its effects completely unchanged; the
operation is total, so no exception reaches the caller. -/
theorem delete_unknown_noop (m : TaskModel) (i : Int)
    (h : ¬ (0 ≤ i ∧ i < (m.tasks.length : Int))) :
    delete_task i m = (m, noEffects) := by
  simp only [delete_task]
  rw [if_neg h]

/-- C6 witness: deleting index 5 from a one-task store is a no-op. -/
theorem delete_unknown_noop_witness :
    ¬ ((0 : Int) ≤ 5 ∧ (5 : Int) <
        (((⟨[⟨"a", false, false⟩], true⟩ : TaskModel)).tasks.length : Int)) ∧
    delete_task 5 ⟨[⟨"a", false, false⟩], true⟩ =
      ((⟨[⟨"a", false, false⟩], true⟩ : TaskModel), noEffects) :=
  ⟨by decide, delete_unknown_noop ⟨[⟨"a", false, false⟩], true⟩ 5 (by decide)⟩

/-- C8: load never fails - a missing file, an unreadable or unparseable
file, and a parseable file whose top level is not a list all produce the
empty store instead of an error. -/
theorem load_never_fails :
    load_tasks .missing = [] ∧ load_tasks .malformed = [] ∧ load_tasks .notList = [] :=
  ⟨rfl, rfl, rfl⟩

/-- C5: with the completion sound loaded, toggling a valid task whose
completed flag is false plays the completion sound exactly once (the
task transitions to completed), and toggling one whose flag is true plays
it zero times. -/
theorem toggle_complete_sound (m : TaskModel) (i : Int)
    (hs : m.hasSound = true) (h0 : 0 ≤ i) (h1 : i < (m.tasks.length : Int)) :
    ((m.tasks.getD i.toNat ⟨"", false, false⟩).completed = false →
      (toggle_complete i m).2.soundPlays = 1) ∧
    ((m.tasks.getD i.toNat ⟨"", false, false⟩).completed = true →
      (toggle_complete i m).2.soundPlays = 0) := by
  constructor <;> intro hc <;>
    simp only [toggle_complete, if_pos (And.intro h0 h1)] <;>
    simp [List.getD] at hc <;> simp [hs, hc]

/-- C5 witness: on a store with one incomplete and one complete task and
the sound loaded, the hypotheses hold and the sound plays once resp. not
at all. -/
theorem toggle_complete_sound_witness :
    ((⟨[⟨"a", false, false⟩], true⟩ : TaskModel).hasSound = true ∧
      (0 : Int) ≤ 0 ∧
      (0 : Int) < (((⟨[⟨"a", false, false⟩], true⟩ : TaskModel)).tasks.length : Int) ∧
      ((((⟨[⟨"a", false, false⟩], true⟩ : TaskModel).tasks.getD (0 : Int).toNat
            ⟨"", false, false⟩).completed = false →
          (toggle_complete 0 ⟨[⟨"a", false, false⟩], true⟩).2.soundPlays = 1) ∧
        (((⟨[⟨"a", false, false⟩], true⟩ : TaskModel).tasks.getD (0 : Int).toNat
            ⟨"", false, false⟩).completed = true →
          (toggle_complete 0 ⟨[⟨"a", false, false⟩], true⟩).2.soundPlays = 0))) :=
  ⟨rfl, by decide, by decide,
    toggle_complete_sound ⟨[⟨"a", false, false⟩], true⟩ 0 rfl (by decide) (by decide)⟩

/-- C7: toggling completion at a valid index twice in a row restores the
task list exactly (so the task's completed flag returns to its original
value), and each of the two calls writes exactly its own intermediate
state to the persistence file. -/
theorem toggle_complete_twice (m : TaskModel) (i : Int)
    (h0 : 0 ≤ i) (h1 : i < (m.tasks.length : Int)) :
    (toggle_complete i (toggle_complete i m).1).1.tasks = m.tasks ∧
    (toggle_complete i m).2.saves = [save_tasks (toggle_complete i m).1.tasks] ∧
    (toggle_complete i (toggle_complete i m).1).2.saves =
      [save_tasks (toggle_complete i (toggle_complete i m).1).1.tasks] := by
  have hn : i.toNat < m.tasks.length := by omega
  have hcond : 0 ≤ i ∧ i < (m.tasks.length : Int) := ⟨h0, h1⟩
  refine ⟨?_, ?_, ?_⟩
  · simp only [toggle_complete, if_pos hcond, List.length_set, if_pos hcond,
      getD_set_self _ _ _ _ hn, List.set_set]
    rw [Bool.not_not]
    exact set_getD_self m.tasks i.toNat _ hn
  · simp only [toggle_complete, if_pos hcond]
  · simp only [toggle_complete, if_pos hcond, List.length_set, if_pos hcond]

/-- C7 witness: toggling the only task of a one-task store twice restores
the list, and each call saved its intermediate state. -/
theorem toggle_complete_twice_witness :
    ((0 : Int) ≤ 0 ∧
      (0 : Int) < (((⟨[⟨"a", false, true⟩], false⟩ : TaskModel)).tasks.length : Int) ∧
      ((toggle_complete 0 (toggle_complete 0 ⟨[⟨"a", false, true⟩], false⟩).1).1.tasks =
          (⟨[⟨"a", false, true⟩], false⟩ : TaskModel).tasks ∧
        (toggle_complete 0 ⟨[⟨"a", false, true⟩], false⟩).2.saves =
          [save_tasks (toggle_complete 0 ⟨[⟨"a", false, true⟩], false⟩).1.tasks] ∧
        (toggle_complete 0 (toggle_complete 0 ⟨[⟨"a", false, true⟩], false⟩).1).2.saves =
          [save_tasks
            (toggle_complete 0 (toggle_complete 0 ⟨[⟨"a", false, true⟩], false⟩).1).1.tasks])) :=
  ⟨by decide, by decide,
    toggle_complete_twice ⟨[⟨"a", false, true⟩], false⟩ 0 (by decide) (by decide)⟩

/-- C9: per-record tolerance of load - an entry missing only
`prioritized` is loaded in place with `prioritized = false`, while an
entry missing `description` or `completed` is skipped without aborting
the load of the surrounding entries. -/
theorem load_record_tolerance (d : String) (c : Bool) (r : JRecord)
    (es1 es2 : List JEntry) (hbad : r.description = none ∨ r.completed = none) :
    load_tasks (.list (es1 ++ [.record ⟨some d, some c, none⟩] ++ es2)) =
      load_tasks (.list es1) ++ [⟨d, c, false⟩] ++ load_tasks (.list es2) ∧
    load_tasks (.list (es1 ++ [.record r] ++ es2)) =
      load_tasks (.list es1) ++ load_tasks (.list es2) := by
  have hr : parseEntry (.record r) = none := by
    obtain ⟨rd, rc, rp⟩ := r
    rcases hbad with h | h
    · simp only at h
      subst h
      rfl
    · simp only at h
      subst h
      cases rd <;> rfl
  constructor
  · simp [load_tasks, List.filterMap_append, List.filterMap_cons, parseEntry]
  · simp [load_tasks, List.filterMap_append, List.filterMap_cons, hr]

/-- C9 witness: a concrete file with a good entry, an entry missing
`prioritized`, an entry missing `completed`, and a non-dict entry. -/
theorem load_record_tolerance_witness :
    (((⟨some "y", none, none⟩ : JRecord).description = none ∨
        (⟨some "y", none, none⟩ : JRecord).completed = none) ∧
      (load_tasks (.list ([.record ⟨some "a", some false, some true⟩] ++
            [.record ⟨some "x", some true, none⟩] ++ [.invalid])) =
          load_tasks (.list [.record ⟨some "a", some false, some true⟩]) ++
            [⟨"x", true, false⟩] ++ load_tasks (.list [.invalid]) ∧
        load_tasks (.list ([.record ⟨some "a", some false, some true⟩] ++
            [.record ⟨some "y", none, none⟩] ++ [.invalid])) =
          load_tasks (.list [.record ⟨some "a", some false, some true⟩]) ++
            load_tasks (.list [.invalid]))) :=
  ⟨Or.inr rfl,
    load_record_tolerance "x" true ⟨some "y", none, none⟩
      [.record ⟨some "a", some false, some true⟩] [.invalid] (Or.inr rfl)⟩

/-- C10: at an index that refers to no existing task, delete,
toggle-complete, toggle-priority and edit each leave the model unchanged
and perform no file write, no data-changed notification and no sound. -/
theorem invalid_index_frame (m : TaskModel) (i : Int) (d : String)
    (h : ¬ (0 ≤ i ∧ i < (m.tasks.length : Int))) :
    delete_task i m = (m, noEffects) ∧
    toggle_complete i m = (m, noEffects) ∧
    toggle_priority i m = (m, noEffects) ∧
    edit_task i d m = (m, noEffects) := by
  have h2 : ¬ (0 ≤ i ∧ i < (m.tasks.length : Int) ∧ d ≠ "") :=
    fun hx => h ⟨hx.1, hx.2.1⟩
  refine ⟨?_, ?_, ?_, ?_⟩
  · simp only [delete_task]
    rw [if_neg h]
  · simp only [toggle_complete]
    rw [if_neg h]
  · simp only [toggle_priority]
    rw [if_neg h]
  · simp only [edit_task]
    rw [if_neg h2]

/-- C10 witness: index -1 on a one-task store is a complete no-op for all
four operations. -/
theorem invalid_index_frame_witness :
    (¬ ((0 : Int) ≤ -1 ∧ (-1 : Int) <
        (((⟨[⟨"a", true, false⟩], true⟩ : TaskModel)).tasks.length : Int)) ∧
      (delete_task (-1) ⟨[⟨"a", true, false⟩], true⟩ =
          ((⟨[⟨"a", true, false⟩], true⟩ : TaskModel), noEffects) ∧
        toggle_complete (-1) ⟨[⟨"a", true, false⟩], true⟩ =
          ((⟨[⟨"a", true, false⟩], true⟩ : TaskModel), noEffects) ∧
        toggle_priority (-1) ⟨[⟨"a", true, false⟩], true⟩ =
          ((⟨[⟨"a", true, false⟩], true⟩ : TaskModel), noEffects) ∧
        edit_task (-1) "z" ⟨[⟨"a", true, false⟩], true⟩ =
          ((⟨[⟨"a", true, false⟩], true⟩ : TaskModel), noEffects))) :=
  ⟨by decide, invalid_index_frame ⟨[⟨"a", true, false⟩], true⟩ (-1) "z" (by decide)⟩

end ToDo
